import Mathlib

/-!
Verification of the docker-util layer of `am_common_lib`
(`docker_util/util.py` and `docker_util/docker_runner.py`).

Strings from the Python side are embedded as `String`/`List Char`; byte
strings as `List Nat` with every element `< 256`; Python `int` results of
subprocesses as `Int`.  Effectful code (subprocess launches) is embedded in
state-passing style: each operation returns the list of subprocess events it
emitted together with an `Except` value (`Except.error` plays the role of a
raised Python exception).
-/

/-! ## Character data from Python's `string` module -/

/-- Python `string.digits`. -/
def asciiDigits : List Char := "0123456789".toList

/-- Python `string.ascii_letters` (lowercase first, then uppercase). -/
def asciiLetters : List Char := "abcdefghijklmnopqrstuvwxyzABCDEFGHIJKLMNOPQRSTUVWXYZ".toList

/-- The ambiguous glyphs removed in `_generate_charset`. -/
def ambiguousChars : List Char := ['0', '1', 'i', 'I', 'L', 'O', 'l', 'o']

/-- Insert a character into a sorted list (by code point). -/
def insertSorted (c : Char) : List Char → List Char
  | [] => [c]
  | d :: ds => if c.val ≤ d.val then c :: d :: ds else d :: insertSorted c ds

/-- Insertion sort by code point; embeds Python's `sorted` on characters. -/
def sortChars : List Char → List Char
  | [] => []
  | c :: cs => insertSorted c (sortChars cs)

/-- `_generate_charset` from `docker_util/util.py`:
`sorted(c for c in string.digits + string.ascii_letters if c not in ambiguous)`. -/
def generate_charset : List Char :=
  sortChars ((asciiDigits ++ asciiLetters).filter (fun c => !ambiguousChars.contains c))

/-! ## `to_base_54` -/

/-- `int.from_bytes(token, "big")`: big-endian value of a byte string. -/
def bytesToNat (token : List Nat) : Nat :=
  token.foldl (fun acc b => acc * 256 + b) 0

/-- Fuel-indexed unfolding of the `while num > 0: num, rem = divmod(num, 54)`
loop of `to_base_54`, producing the base-54 digits most significant first
(the Python code appends remainders and reverses at the end).  Since
`n / 54 < n` for `n > 0`, fuel `n` is always enough for input `n`; the
fuel only makes the recursion structural. -/
def toDigits54Aux : Nat → Nat → List Nat
  | _, 0 => []
  | 0, _ + 1 => []
  | fuel + 1, n + 1 => toDigits54Aux fuel ((n + 1) / 54) ++ [(n + 1) % 54]

/-- Base-54 digits of `n`, most significant first. -/
def toDigits54 (n : Nat) : List Nat := toDigits54Aux n n

/-- `to_base_54` from `docker_util/util.py`. -/
def to_base_54 (token : List Nat) : List Char :=
  if token.length = 0 then []
  else
    let char_set := generate_charset
    let num := bytesToNat token
    if num = 0 then [char_set.getD 0 ' ']
    else (toDigits54 num).map (fun d => char_set.getD d ' ')

/-- Index of a character in the base-54 charset (decoder helper). -/
def charIdx (c : Char) : Nat := generate_charset.findIdx (fun d => d == c)

/-- Decode a base-54 string back to the integer it encodes. -/
def decodeB54 (s : List Char) : Nat :=
  s.foldl (fun a c => a * 54 + charIdx c) 0

/-- Value of a most-significant-first digit list in base 54. -/
def fromDigits54 (ds : List Nat) : Nat :=
  ds.foldl (fun a d => a * 54 + d) 0

/-! ## `get_container_name_base` -/

/-- Membership in the regex class `[A-Za-z0-9]`. -/
def isAsciiAlnum (c : Char) : Bool :=
  ('A' ≤ c && c ≤ 'Z') || ('a' ≤ c && c ≤ 'z') || ('0' ≤ c && c ≤ '9')

/-- Membership in the regex class `[A-Za-z0-9_.-]` of characters permitted in
container names. -/
def dockerNameOk (c : Char) : Bool :=
  isAsciiAlnum c || c == '_' || c == '.' || c == '-'

/-- `re.sub(r"[^A-Za-z0-9_.-]+", "_", s)`: each maximal run of characters
outside the class is replaced by a single underscore (the `+` makes the whole
run one match).  `prevBad` records whether the previous character belonged to
a run that has already produced its underscore. -/
def subBadRuns : List Char → Bool → List Char
  | [], _ => []
  | c :: rest, prevBad =>
    if dockerNameOk c then c :: subBadRuns rest false
    else if prevBad then subBadRuns rest true
    else '_' :: subBadRuns rest true

/-- Truthiness of `re.match(r"^[A-Za-z0-9]", s)`. -/
def startsAlnum : List Char → Bool
  | [] => false
  | c :: _ => isAsciiAlnum c

/-- UTF-8 encoding of one character (`str.encode("utf-8")`, per scalar value). -/
def utf8EncodeChar (c : Char) : List Nat :=
  let n := c.toNat
  if n < 128 then [n]
  else if n < 2048 then [192 + n / 64, 128 + n % 64]
  else if n < 65536 then [224 + n / 4096, 128 + (n / 64) % 64, 128 + n % 64]
  else [240 + n / 262144, 128 + (n / 4096) % 64, 128 + (n / 64) % 64, 128 + n % 64]

/-- UTF-8 encoding of a string (`str.encode("utf-8")`). -/
def utf8Encode : List Char → List Nat
  | [] => []
  | c :: cs => utf8EncodeChar c ++ utf8Encode cs

/-- Reflected CRC-32 polynomial used by `zlib.crc32`. -/
def crc32Poly : Nat := 0xEDB88320

/-- One bit step of CRC-32: shift right, conditionally xor the polynomial. -/
def crc32Bit (c : Nat) : Nat := if c % 2 = 1 then (c / 2) ^^^ crc32Poly else c / 2

/-- Iterate `crc32Bit`. -/
def crc32Bits : Nat → Nat → Nat
  | 0, c => c
  | k + 1, c => crc32Bits k (crc32Bit c)

/-- Absorb one byte into a CRC-32 state. -/
def crc32Update (crc byte : Nat) : Nat := crc32Bits 8 (crc ^^^ byte)

/-- `zlib.crc32(data)` with the default starting value: init `0xFFFFFFFF`,
process each byte LSB-first, final xor `0xFFFFFFFF`.  (Checked against the
standard CRC-32 check value `crc32(b"123456789") = 0xCBF43926`.) -/
def crc32 (data : List Nat) : Nat :=
  (data.foldl crc32Update 0xFFFFFFFF) ^^^ 0xFFFFFFFF

/-- Python `string.ascii_letters + string.digits` (the `alnum` local of
`get_container_name_base`), 62 characters. -/
def alnum : List Char := asciiLetters ++ asciiDigits

/-- `get_container_name_base` from `docker_util/util.py` (the memoizing
`lru_cache` decorator is pure caching and is not modelled).  `Except.error`
embeds the `raise ValueError`.  Note that in the source the whole
`if max_length is not None:` block is nested inside the
`if not re.match(r"^[A-Za-z0-9]", sanitized_base):` branch, so `max_length`
is consulted only when the hash-derived character is prepended. -/
def get_container_name_base (img_name : List Char) (max_length : Option Int) :
    Except String (List Char) :=
  let sanitized_base := subBadRuns img_name false
  if startsAlnum sanitized_base then Except.ok sanitized_base
  else
    let hash_val := crc32 (utf8Encode img_name)
    let lead_char := alnum.getD (hash_val % alnum.length) ' '
    let s := lead_char :: sanitized_base
    match max_length with
    | none => Except.ok s
    | some m =>
      if m < 2 then Except.error "max_length must be at least 2"
      else if (s.length : Int) > m then
        Except.ok (s.take 1 ++ s.drop (s.length - (m - 1).toNat))
      else Except.ok s

deriving instance DecidableEq for Except

/-- Spec-side reading of claim C5 (for comparison with the code): every
character outside `[A-Za-z0-9_.-]` is replaced by an underscore, one for one. -/
def charwiseSanitize (s : List Char) : List Char :=
  s.map (fun c => if dockerNameOk c then c else '_')

/-- Bool test for the full regex `^[A-Za-z0-9][A-Za-z0-9_.-]*$`. -/
def matchesContainerNameRe : List Char → Bool
  | [] => false
  | c :: rest => isAsciiAlnum c && rest.all dockerNameOk

/-- No two adjacent characters are both outside the permitted class (on such
inputs collapsing runs and per-character replacement agree). -/
def noAdjacentBad : List Char → Bool
  | [] => true
  | [_] => true
  | c :: d :: rest => (dockerNameOk c || dockerNameOk d) && noAdjacentBad (d :: rest)

/-! ## Embedding of `docker_runner.py`

Subprocess interactions are modelled by an event trace (`Event`), with
oracles supplying the outcomes (exit codes, stdout) the Docker daemon would
produce.  Exceptions become `Except.error` of a structured `RunError`. -/

/-- A subprocess interaction: `runCmd` is a synchronous `subprocess.run`,
`spawn` a streaming `subprocess.Popen`. -/
inductive Event
  | runCmd (cmd : List String)
  | spawn (cmd : List String)
deriving DecidableEq

/-- True only for `spawn` events. -/
def Event.isSpawn : Event → Bool
  | .spawn _ => true
  | _ => false

/-- Structured counterpart of the Python exceptions raised by this layer. -/
inductive RunError
  | commandFailed (returncode : Int)
  | fileNotFound (path : String)
  | transferFailed (src : String) (exitCode : Int)
  | invalidArgument (msg : String)
deriving DecidableEq

/-- Outcome the daemon produces for one synchronous `docker exec` call. -/
structure ExecOutcome where
  returncode : Int
  stdout : String
deriving DecidableEq

/-- Expansion of a `-u user` / `-w workdir` flag pair, honouring Python's
truthiness (`if user:` is false for `None` and for the empty string). -/
def optFlag (flag : String) : Option String → List String
  | none => []
  | some v => if v = "" then [] else [flag, v]

/-- The command list built by `DockerRunner.run`. -/
def buildExecCmd (containerName : String) (cmd execArgs : List String)
    (user workdir : Option String) : List String :=
  ["docker", "exec"] ++ execArgs ++ optFlag "-u" user ++ optFlag "-w" workdir
    ++ [containerName] ++ cmd

/-- `str.lstrip('/')`. -/
def pyLstripSlash (s : String) : String :=
  String.mk (s.toList.dropWhile (fun c => c == '/'))

/-- `str.rstrip('/')`. -/
def pyRstripSlash (s : String) : String :=
  String.mk ((s.toList.reverse.dropWhile (fun c => c == '/')).reverse)

/-- ASCII part of Python's `str.strip()` whitespace set (the container
paths and command output handled here are ASCII). -/
def isPyWhitespace (c : Char) : Bool :=
  c == ' ' || c == '\t' || c == '\n' || c == '\r' || c == '\x0b' || c == '\x0c'

/-- `str.strip()`. -/
def pyStrip (s : String) : String :=
  String.mk (((s.toList.dropWhile isPyWhitespace).reverse.dropWhile isPyWhitespace).reverse)

/-- `posixpath.dirname`: everything before the final slash, with trailing
slashes removed unless the result is all slashes. -/
def posixDirname (s : String) : String :=
  let cs := s.toList
  let tail := cs.reverse.takeWhile (fun c => c != '/')
  if tail.length = cs.length then ""
  else
    let head := cs.take (cs.length - tail.length)
    if head.all (fun c => c == '/') then String.mk head
    else String.mk ((head.reverse.dropWhile (fun c => c == '/')).reverse)

/-- The fields of a `_DockerFileIO` instance set by its `__init__` (the
subprocess handle starts out `None` and is not stored here; `enter` reports
the processes it launches on its event trace instead). -/
structure DockerFileStream where
  path : String
  mode : String
  user : Option String
  cwd : Option String
deriving DecidableEq

/-- `DockerRunner.open`: validates the mode first, then joins `workdir` onto
relative paths, then constructs the stream object.  No subprocess is
involved at this stage (the trace is the first component), and on a bad mode
the `ValueError` is raised before the stream object exists. -/
def DockerRunner.openFile (path : String) (mode : String)
    (user workdir : Option String) : List Event × Except RunError DockerFileStream :=
  if ¬ (mode = "rb" ∨ mode = "wb") then
    ([], Except.error (RunError.invalidArgument ("Unsupported mode: " ++ mode)))
  else
    let joined :=
      match workdir with
      | some w =>
        if w ≠ "" ∧ path.startsWith "/" = false then
          pyRstripSlash w ++ "/" ++ pyLstripSlash path
        else path
      | none => path
    ([], Except.ok ⟨joined, mode, user, workdir⟩)

/-- `_DockerFileIO.__enter__`.  `testReturncode` is the exit code the
in-container `test -f` check would get.  Write mode spawns the `tee`
process; read mode first runs the synchronous existence check through
`DockerRunner.run` and raises `FileNotFoundError` when it fails, only
otherwise spawning the `cat` process. -/
def DockerFileStream.enter (s : DockerFileStream) (containerName : String)
    (testReturncode : Int) : List Event × Except RunError DockerFileStream :=
  let base_cmd := ["docker", "exec", "-i"] ++ optFlag "-u" s.user
    ++ optFlag "-w" s.cwd ++ [containerName]
  if s.mode = "wb" then
    ([Event.spawn (base_cmd ++ ["tee", s.path])], Except.ok s)
  else if s.mode = "rb" then
    let checkCmd := buildExecCmd containerName ["test", "-f", s.path] [] none none
    if testReturncode ≠ 0 then
      ([Event.runCmd checkCmd], Except.error (RunError.fileNotFound s.path))
    else
      ([Event.runCmd checkCmd, Event.spawn (base_cmd ++ ["cat", s.path])], Except.ok s)
  else ([], Except.ok s)

/-- The mutable state of a `DockerRunnerUserView`: its fixed username and its
current working directory. -/
structure UserViewState where
  username : String
  cwd : String
deriving DecidableEq

/-- Oracle for one `DockerRunnerUserView.copy_to` call: whether the local
source exists and is a directory, and the exit codes of the in-container
`mkdir` and tar-extraction subprocesses. -/
structure CopyToOracle where
  srcExists : Bool
  srcIsDir : Bool
  mkdirReturncode : Int
  tarReturncode : Int
deriving DecidableEq

/-- `DockerRunnerUserView.copy_to`.  Directory sources: `mkdir -p` (strict),
then a spawned in-container `tar -C dest -xzf -` fed the gzipped tarball;
a non-zero exit of that process raises the `RuntimeError` carrying the exit
code.  File sources: optional `makedirs` on the destination's parent, then
the content is streamed through a write-mode `DockerFileStream` (the 8 KiB
chunk loop moves bytes only and is not modelled; `__exit__` checks no exit
code in write mode, so a successful trace ends in `Except.ok`). -/
def DockerRunnerUserView.copy_to (st : UserViewState) (containerName : String)
    (src_path dest_path : String) (makedirs : Bool) (o : CopyToOracle) :
    List Event × Except RunError Unit :=
  if o.srcExists = false then
    ([], Except.error (RunError.fileNotFound src_path))
  else if o.srcIsDir then
    let mkdirCmd := buildExecCmd containerName ["mkdir", "-p", dest_path] []
      (some st.username) (some st.cwd)
    if o.mkdirReturncode ≠ 0 then
      ([Event.runCmd mkdirCmd], Except.error (RunError.commandFailed o.mkdirReturncode))
    else
      let tarCmd := ["docker", "exec", "-i", "-u", st.username, "-w", st.cwd,
        containerName, "tar", "-C", dest_path, "-xzf", "-"]
      if o.tarReturncode ≠ 0 then
        ([Event.runCmd mkdirCmd, Event.spawn tarCmd],
         Except.error (RunError.transferFailed src_path o.tarReturncode))
      else
        ([Event.runCmd mkdirCmd, Event.spawn tarCmd], Except.ok ())
  else
    let parent0 := posixDirname dest_path
    let parent := if parent0 = "" then "." else parent0
    let mkdirEvents :=
      if makedirs then
        [Event.runCmd (buildExecCmd containerName ["mkdir", "-p", parent] []
          (some st.username) (some st.cwd))]
      else []
    if makedirs ∧ o.mkdirReturncode ≠ 0 then
      (mkdirEvents, Except.error (RunError.commandFailed o.mkdirReturncode))
    else
      match DockerRunner.openFile dest_path "wb" (some st.username) (some st.cwd) with
      | (_, Except.error e) => (mkdirEvents, Except.error e)
      | (_, Except.ok fio) =>
        let entered := DockerFileStream.enter fio containerName 0
        (mkdirEvents ++ entered.1, Except.ok ())

/-- `DockerRunnerUserView.chdir`: runs `pwd` with `workdir=new_dir` under the
view's user with `check=True` (exit code from the oracle); only when that
run returns does it overwrite the stored working directory with the stripped
stdout.  A raise propagates before the assignment, so the state component
returned alongside the error is the unchanged input state. -/
def DockerRunnerUserView.chdir (st : UserViewState) (containerName : String)
    (new_dir : String) (o : ExecOutcome) :
    List Event × UserViewState × Except RunError Unit :=
  let cmd := buildExecCmd containerName ["pwd"] [] (some st.username) (some new_dir)
  if o.returncode ≠ 0 then
    ([Event.runCmd cmd], st, Except.error (RunError.commandFailed o.returncode))
  else
    ([Event.runCmd cmd], { st with cwd := pyStrip o.stdout }, Except.ok ())

/-- C7: `to_base_54` maps the empty byte string to the empty string and the
single zero byte to the one-character string holding the charset's first
character (which is `'2'`), not the empty string. -/
theorem to_base_54_empty_and_zero_byte :
    to_base_54 [] = [] ∧ to_base_54 [0] = [generate_charset.getD 0 ' '] ∧
      generate_charset.getD 0 ' ' = '2' ∧ (to_base_54 [0]).length = 1 := by
  refine ⟨rfl, ?_, ?_, ?_⟩ <;> decide

/-- C1, counterexample: the claim "for every image name and every provided
`max_length >= 2` the returned string has length at most `max_length`" is
false at `img_name = "abc"`, `max_length = 2`: the sanitized name starts
alphanumeric, the branch holding the truncation is skipped, and the
three-character string `"abc"` is returned. -/
theorem get_container_name_base_ignores_max_length_cex :
    get_container_name_base ['a', 'b', 'c'] (some 2) = Except.ok ['a', 'b', 'c'] ∧
      ¬ (((['a', 'b', 'c'] : List Char).length : Int) ≤ 2) := by
  constructor
  · decide
  · decide

/-- C1, amended: whenever the sanitized image name does not start with an
alphanumeric character (so the branch containing the truncation code runs),
any provided `max_length ≥ 2` is respected: the call succeeds and the
returned string has length at most `max_length`. -/
theorem get_container_name_base_respects_max_length (img : List Char) (m : Int)
    (h2 : 2 ≤ m) (hs : startsAlnum (subBadRuns img false) = false) :
    ∃ r, get_container_name_base img (some m) = Except.ok r ∧ (r.length : Int) ≤ m := by
  have hm : ¬ m < 2 := by omega
  by_cases hlen : ((alnum.getD (crc32 (utf8Encode img) % alnum.length) ' '
      :: subBadRuns img false).length : Int) > m
  · have heq : get_container_name_base img (some m)
        = Except.ok ((alnum.getD (crc32 (utf8Encode img) % alnum.length) ' '
            :: subBadRuns img false).take 1
          ++ (alnum.getD (crc32 (utf8Encode img) % alnum.length) ' '
            :: subBadRuns img false).drop
              ((alnum.getD (crc32 (utf8Encode img) % alnum.length) ' '
                :: subBadRuns img false).length - (m - 1).toNat)) := by
      simp only [get_container_name_base, hs, Bool.false_eq_true, if_false, if_neg hm,
        if_pos hlen]
    refine ⟨_, heq, ?_⟩
    have hk : ((m - 1).toNat : Int) = m - 1 := Int.toNat_of_nonneg (by omega)
    simp only [List.length_append, List.length_take, List.length_drop,
      List.length_cons] at hlen ⊢
    omega
  · have heq : get_container_name_base img (some m)
        = Except.ok (alnum.getD (crc32 (utf8Encode img) % alnum.length) ' '
            :: subBadRuns img false) := by
      simp only [get_container_name_base, hs, Bool.false_eq_true, if_false, if_neg hm,
        if_neg hlen]
    refine ⟨_, heq, ?_⟩
    simp only [List.length_cons] at hlen ⊢
    omega

/-- C1, witness: at `img_name = ":"` (sanitized to `"_"`, so the truncation
branch runs) and `max_length = 2` the result length is at most 2. -/
theorem get_container_name_base_respects_max_length_witness :
    ∃ r, get_container_name_base [':'] (some 2) = Except.ok r ∧ (r.length : Int) ≤ 2 :=
  get_container_name_base_respects_max_length [':'] 2 (by decide) (by decide)

/-- C2, counterexample: the claim "for every image name, `max_length < 2`
raises `ValueError`" is false at `img_name = "abc"`, `max_length = 1`: the
sanitized name starts alphanumeric, the branch holding the check is skipped,
and the call returns `"abc"` instead of raising. -/
theorem get_container_name_base_no_error_cex :
    get_container_name_base ['a', 'b', 'c'] (some 1) = Except.ok ['a', 'b', 'c'] := by
  decide

/-- C2, amended: whenever the sanitized image name does not start with an
alphanumeric character (so the branch containing the check runs), any
`max_length < 2` raises the `ValueError` `"max_length must be at least 2"`. -/
theorem get_container_name_base_small_max_errors (img : List Char) (m : Int)
    (hm : m < 2) (hs : startsAlnum (subBadRuns img false) = false) :
    get_container_name_base img (some m) = Except.error "max_length must be at least 2" := by
  simp only [get_container_name_base, hs, Bool.false_eq_true, if_false, if_pos hm]

/-- C2, witness: at `img_name = ":"` and `max_length = 1` the call raises. -/
theorem get_container_name_base_small_max_errors_witness :
    get_container_name_base [':'] (some 1) = Except.error "max_length must be at least 2" :=
  get_container_name_base_small_max_errors [':'] 1 (by decide) (by decide)

/-- Every character emitted by the underscore substitution lies in the class
`[A-Za-z0-9_.-]`. -/
theorem subBadRuns_all_ok (l : List Char) :
    ∀ b, ((subBadRuns l b).all dockerNameOk) = true := by
  induction l with
  | nil => intro b; rfl
  | cons c rest ih =>
    intro b
    by_cases h : dockerNameOk c
    · simp [subBadRuns, h, ih]
    · have hu : dockerNameOk '_' = true := by decide
      by_cases hb : b
      · simp [subBadRuns, h, hb, ih]
      · simp [subBadRuns, h, hb, ih, hu]

/-- The tail of an input without adjacent bad characters again has no
adjacent bad characters. -/
theorem noAdjacentBad_tail (c : Char) (rest : List Char)
    (h : noAdjacentBad (c :: rest) = true) : noAdjacentBad rest = true := by
  cases rest with
  | nil => rfl
  | cons d r =>
    simp only [noAdjacentBad, Bool.and_eq_true] at h
    exact h.2

/-- On inputs where no two bad characters are adjacent, collapsing runs of
bad characters agrees with replacing each bad character individually. -/
theorem subBadRuns_eq_charwise (l : List Char) (h : noAdjacentBad l = true) :
    subBadRuns l false = charwiseSanitize l := by
  induction l with
  | nil => rfl
  | cons c rest ih =>
    by_cases hc : dockerNameOk c
    · have hhead : charwiseSanitize (c :: rest) = c :: charwiseSanitize rest := by
        simp [charwiseSanitize, hc]
      rw [hhead]
      simp only [subBadRuns, hc, if_true]
      rw [ih (noAdjacentBad_tail c rest h)]
    · have hhead : charwiseSanitize (c :: rest) = '_' :: charwiseSanitize rest := by
        simp [charwiseSanitize, hc]
      rw [hhead]
      simp only [subBadRuns, hc, Bool.false_eq_true, if_false]
      cases rest with
      | nil => rfl
      | cons d r =>
        have hd : dockerNameOk d = true := by
          simp only [noAdjacentBad, Bool.and_eq_true, Bool.or_eq_true] at h
          rcases h.1 with h1 | h1
          · exact absurd h1 hc
          · exact h1
        have hflag : subBadRuns (d :: r) true = subBadRuns (d :: r) false := by
          simp [subBadRuns, hd]
        rw [hflag, ih (noAdjacentBad_tail c (d :: r) h)]

/-- Every entry of the 62-character `alnum` table is alphanumeric. -/
theorem alnum_getD_isAlnum : ∀ i, i < 62 → isAsciiAlnum (alnum.getD i ' ') = true := by
  decide

/-- C5, counterexample: the claim reads "every character outside
`[A-Za-z0-9_.-]` is replaced by `_`", but the substitution uses the regex
`[^A-Za-z0-9_.-]+`, which replaces each maximal run of such characters with
one underscore.  At `img_name = "a!!b"` the code returns `"a_b"` while the
per-character reading demands `"a__b"`. -/
theorem get_container_name_base_charwise_cex :
    get_container_name_base ['a', '!', '!', 'b'] none = Except.ok ['a', '_', 'b'] ∧
      charwiseSanitize ['a', '!', '!', 'b'] = ['a', '_', '_', 'b'] ∧
      (['a', '_', 'b'] : List Char) ≠ ['a', '_', '_', 'b'] := by
  refine ⟨?_, ?_, ?_⟩ <;> decide

/-- C5, amended: (1) for every input the call without `max_length` succeeds
and its output matches `^[A-Za-z0-9][A-Za-z0-9_.-]*$`; (2) whenever no two
characters outside `[A-Za-z0-9_.-]` are adjacent, the substitution replaces
each such character individually by `_` (in general each maximal run becomes
a single `_`); (3) whenever the substituted result does not start with an
alphanumeric character, the output is that result with one deterministic
character prepended, taken from the 62-letter alphanumeric table at index
`crc32(utf8(img_name)) mod 62`. -/
theorem get_container_name_base_sanitizes :
    (∀ img : List Char, ∃ r, get_container_name_base img none = Except.ok r ∧
        matchesContainerNameRe r = true) ∧
      (∀ img : List Char, noAdjacentBad img = true →
        subBadRuns img false = charwiseSanitize img) ∧
      (∀ img : List Char, startsAlnum (subBadRuns img false) = false →
        get_container_name_base img none
          = Except.ok (alnum.getD (crc32 (utf8Encode img) % alnum.length) ' '
              :: subBadRuns img false) ∧
          isAsciiAlnum (alnum.getD (crc32 (utf8Encode img) % alnum.length) ' ') = true) := by
  have hlead : ∀ img : List Char,
      isAsciiAlnum (alnum.getD (crc32 (utf8Encode img) % alnum.length) ' ') = true := by
    intro img
    have h62 : alnum.length = 62 := by decide
    exact alnum_getD_isAlnum _ (h62 ▸ Nat.mod_lt _ (by rw [h62]; decide))
  refine ⟨?_, subBadRuns_eq_charwise, ?_⟩
  · intro img
    by_cases hs : startsAlnum (subBadRuns img false)
    · refine ⟨subBadRuns img false, ?_, ?_⟩
      · simp only [get_container_name_base, hs, if_true]
      · have hall := subBadRuns_all_ok img false
        cases hsub : subBadRuns img false with
        | nil => rw [hsub] at hs; exact absurd hs (by decide)
        | cons c rest =>
          rw [hsub] at hs hall
          simp only [List.all_cons, Bool.and_eq_true] at hall
          simp only [startsAlnum] at hs
          simp only [matchesContainerNameRe, Bool.and_eq_true]
          exact ⟨hs, hall.2⟩
    · rw [Bool.not_eq_true] at hs
      refine ⟨alnum.getD (crc32 (utf8Encode img) % alnum.length) ' '
          :: subBadRuns img false, ?_, ?_⟩
      · simp only [get_container_name_base, hs, Bool.false_eq_true, if_false]
      · have hall := subBadRuns_all_ok img false
        simp only [matchesContainerNameRe, Bool.and_eq_true]
        exact ⟨hlead img, hall⟩
  · intro img hs
    constructor
    · simp only [get_container_name_base, hs, Bool.false_eq_true, if_false]
    · exact hlead img

/-- C5, witness: at `img_name = ":x"` no two disallowed characters are
adjacent and the substitution is exactly per-character. -/
theorem get_container_name_base_sanitizes_witness :
    (∃ r, get_container_name_base [':', 'x'] none = Except.ok r ∧
        matchesContainerNameRe r = true) ∧
      subBadRuns [':', 'x'] false = charwiseSanitize [':', 'x'] :=
  ⟨get_container_name_base_sanitizes.1 [':', 'x'],
   get_container_name_base_sanitizes.2.1 [':', 'x'] (by decide)⟩

/-- With enough fuel, the divmod loop produces digits that evaluate back to
the input and are all below 54. -/
theorem toDigits54Aux_spec :
    ∀ fuel n, n ≤ fuel →
      fromDigits54 (toDigits54Aux fuel n) = n ∧ ∀ d ∈ toDigits54Aux fuel n, d < 54 := by
  intro fuel
  induction fuel with
  | zero =>
    intro n hn
    have : n = 0 := Nat.le_zero.mp hn
    subst this
    exact ⟨rfl, by intro d hd; simp [toDigits54Aux] at hd⟩
  | succ fuel ih =>
    intro n hn
    match n with
    | 0 => exact ⟨rfl, by intro d hd; simp [toDigits54Aux] at hd⟩
    | n + 1 =>
      have hdiv : (n + 1) / 54 ≤ fuel := by
        have := Nat.div_lt_self (Nat.succ_pos n) (by decide : 1 < 54)
        omega
      obtain ⟨ih1, ih2⟩ := ih ((n + 1) / 54) hdiv
      have heq : toDigits54Aux (fuel + 1) (n + 1)
          = toDigits54Aux fuel ((n + 1) / 54) ++ [(n + 1) % 54] := rfl
      constructor
      · rw [heq]
        unfold fromDigits54 at ih1 ⊢
        rw [List.foldl_append]
        simp only [List.foldl_cons, List.foldl_nil]
        rw [ih1]
        omega
      · intro d hd
        rw [heq, List.mem_append] at hd
        rcases hd with hd | hd
        · exact ih2 d hd
        · simp only [List.mem_singleton] at hd
          omega

/-- Round trip for the digit expansion. -/
theorem fromDigits54_toDigits54 (n : Nat) : fromDigits54 (toDigits54 n) = n :=
  (toDigits54Aux_spec n n le_rfl).1

/-- All produced digits are valid base-54 digits. -/
theorem toDigits54_lt (n : Nat) : ∀ d ∈ toDigits54 n, d < 54 :=
  (toDigits54Aux_spec n n le_rfl).2

/-- Looking up a digit in the charset and finding it again is the identity. -/
theorem charIdx_getD : ∀ d, d < 54 → charIdx (generate_charset.getD d ' ') = d := by
  decide

/-- Decoding the character image of a digit list is decoding the digit list. -/
theorem decode_foldl_map (ds : List Nat) :
    ∀ acc, (∀ d ∈ ds, d < 54) →
      ((ds.map (fun d => generate_charset.getD d ' ')).foldl
          (fun a c => a * 54 + charIdx c) acc)
        = ds.foldl (fun a d => a * 54 + d) acc := by
  induction ds with
  | nil => intro acc _; rfl
  | cons d ds ih =>
    intro acc h
    simp only [List.map_cons, List.foldl_cons]
    rw [charIdx_getD d (h d (List.mem_cons_self d ds))]
    exact ih _ (fun x hx => h x (List.mem_cons_of_mem d hx))

/-- Decoding `to_base_54` recovers the big-endian integer value of the input
byte string (for the empty string both sides are zero). -/
theorem decodeB54_to_base_54 (token : List Nat) :
    decodeB54 (to_base_54 token) = bytesToNat token := by
  by_cases h0 : token.length = 0
  · have : token = [] := List.length_eq_zero.mp h0
    subst this
    rfl
  · by_cases hnum : bytesToNat token = 0
    · have henc : to_base_54 token = [generate_charset.getD 0 ' '] := by
        simp only [to_base_54, h0, if_false, hnum, if_true]
      rw [henc, hnum]
      show 0 * 54 + charIdx (generate_charset.getD 0 ' ') = 0
      rw [charIdx_getD 0 (by decide)]
    · have henc : to_base_54 token
          = (toDigits54 (bytesToNat token)).map (fun d => generate_charset.getD d ' ') := by
        simp only [to_base_54, h0, if_false, hnum, if_false]
      rw [henc]
      unfold decodeB54
      rw [decode_foldl_map _ 0 (toDigits54_lt _)]
      exact fromDigits54_toDigits54 _

/-- Shifting the accumulator of the byte fold. -/
theorem foldl256_shift (xs : List Nat) :
    ∀ acc, xs.foldl (fun a b => a * 256 + b) acc
      = acc * 256 ^ xs.length + xs.foldl (fun a b => a * 256 + b) 0 := by
  induction xs with
  | nil => intro acc; simp
  | cons x xs ih =>
    intro acc
    simp only [List.foldl_cons, List.length_cons]
    rw [ih (acc * 256 + x), ih (0 * 256 + x)]
    ring

/-- Big-endian value of a byte string, peeled one byte. -/
theorem bytesToNat_cons (x : Nat) (xs : List Nat) :
    bytesToNat (x :: xs) = x * 256 ^ xs.length + bytesToNat xs := by
  unfold bytesToNat
  simp only [List.foldl_cons]
  rw [foldl256_shift xs (0 * 256 + x)]
  ring

/-- The value of a byte string is bounded by `256 ^ length`. -/
theorem bytesToNat_lt (xs : List Nat) (h : ∀ b ∈ xs, b < 256) :
    bytesToNat xs < 256 ^ xs.length := by
  induction xs with
  | nil => simp [bytesToNat]
  | cons x xs ih =>
    rw [bytesToNat_cons]
    have hx : x < 256 := h x (List.mem_cons_self x xs)
    have hr : bytesToNat xs < 256 ^ xs.length :=
      ih (fun b hb => h b (List.mem_cons_of_mem x hb))
    calc x * 256 ^ xs.length + bytesToNat xs
        < x * 256 ^ xs.length + 256 ^ xs.length := Nat.add_lt_add_left hr _
      _ = (x + 1) * 256 ^ xs.length := by ring
      _ ≤ 256 * 256 ^ xs.length := Nat.mul_le_mul_right _ hx
      _ = 256 ^ (x :: xs).length := by rw [List.length_cons]; ring

/-- Uniqueness of quotient and remainder. -/
theorem mul_add_cancel_unique {B a b r s : Nat} (hr : r < B) (hs : s < B)
    (h : a * B + r = b * B + s) : a = b ∧ r = s := by
  have hB : 0 < B := Nat.lt_of_le_of_lt (Nat.zero_le r) hr
  have ha : (B * a + r) / B = a := by
    rw [Nat.mul_add_div hB, Nat.div_eq_of_lt hr, Nat.add_zero]
  have hb : (B * b + s) / B = b := by
    rw [Nat.mul_add_div hB, Nat.div_eq_of_lt hs, Nat.add_zero]
  rw [Nat.mul_comm a B, Nat.mul_comm b B] at h
  have hab : a = b := by rw [← ha, ← hb, h]
  refine ⟨hab, ?_⟩
  rw [hab] at h
  exact Nat.add_left_cancel h

/-- `int.from_bytes(-, "big")` is injective on byte strings of one length. -/
theorem bytesToNat_inj : ∀ xs ys : List Nat, xs.length = ys.length →
    (∀ b ∈ xs, b < 256) → (∀ b ∈ ys, b < 256) →
    bytesToNat xs = bytesToNat ys → xs = ys := by
  intro xs
  induction xs with
  | nil =>
    intro ys hlen _ _ _
    cases ys with
    | nil => rfl
    | cons y ys => simp at hlen
  | cons x xs ih =>
    intro ys hlen hxb hyb heq
    cases ys with
    | nil => simp at hlen
    | cons y ys =>
      have hlen2 : xs.length = ys.length := by simpa using hlen
      rw [bytesToNat_cons, bytesToNat_cons, hlen2] at heq
      have h1 : bytesToNat xs < 256 ^ ys.length := by
        rw [← hlen2]
        exact bytesToNat_lt xs (fun b hb => hxb b (List.mem_cons_of_mem x hb))
      have h2 : bytesToNat ys < 256 ^ ys.length :=
        bytesToNat_lt ys (fun b hb => hyb b (List.mem_cons_of_mem y hb))
      obtain ⟨hxy, hrs⟩ := mul_add_cancel_unique h1 h2 heq
      rw [hxy, ih ys hlen2 (fun b hb => hxb b (List.mem_cons_of_mem x hb))
        (fun b hb => hyb b (List.mem_cons_of_mem y hb)) hrs]

/-- C6: `to_base_54` encodes the big-endian unsigned integer value of the
byte string in base 54 (decoding the output with the same 54-character
alphabet recovers that integer), and it is injective over byte strings of
any one fixed length: two equal-length byte strings with the same encoding
are equal. -/
theorem to_base_54_round_trip_and_injective (xs ys : List Nat)
    (hlen : xs.length = ys.length)
    (hx : ∀ b ∈ xs, b < 256) (hy : ∀ b ∈ ys, b < 256) :
    decodeB54 (to_base_54 xs) = bytesToNat xs ∧
      (to_base_54 xs = to_base_54 ys → xs = ys) := by
  refine ⟨decodeB54_to_base_54 xs, fun henc => ?_⟩
  apply bytesToNat_inj xs ys hlen hx hy
  rw [← decodeB54_to_base_54 xs, ← decodeB54_to_base_54 ys, henc]

/-- C6, witness: at the two-byte string `[2, 5]` decoding the encoding
yields `2 * 256 + 5 = 517`, and the injectivity conclusion applies. -/
theorem to_base_54_round_trip_witness :
    decodeB54 (to_base_54 [2, 5]) = bytesToNat [2, 5] ∧
      (to_base_54 [2, 5] = to_base_54 [2, 5] → [2, 5] = ([2, 5] : List Nat)) :=
  to_base_54_round_trip_and_injective [2, 5] [2, 5] rfl (by decide) (by decide)

/-- C9: prepending a zero byte to a non-empty byte string does not change the
encoding, so `to_base_54` is not injective across different lengths (e.g.
`[0, 5]` and `[5]` are distinct byte strings with distinct lengths and the
same encoding). -/
theorem to_base_54_leading_zero (b : List Nat) (h : b ≠ []) :
    to_base_54 (0 :: b) = to_base_54 b ∧
      ∃ b1 b2 : List Nat, b1 ≠ b2 ∧ b1.length ≠ b2.length ∧
        to_base_54 b1 = to_base_54 b2 := by
  constructor
  · have hnum : bytesToNat (0 :: b) = bytesToNat b := by
      unfold bytesToNat
      simp
    have hlb : ¬ b.length = 0 := fun hh => h (List.length_eq_zero.mp hh)
    unfold to_base_54
    simp only [List.length_cons, hnum]
    rw [if_neg (by omega), if_neg hlb]
  · exact ⟨[0, 5], [5], by decide, by decide, by decide⟩

/-- C9, witness: the identity applies at the one-byte string `[5]`. -/
theorem to_base_54_leading_zero_witness :
    to_base_54 [0, 5] = to_base_54 [5] ∧
      ∃ b1 b2 : List Nat, b1 ≠ b2 ∧ b1.length ≠ b2.length ∧
        to_base_54 b1 = to_base_54 b2 :=
  to_base_54_leading_zero [5] (by decide)

/-- C8: for every mode other than `"rb"` and `"wb"`, `DockerRunner.open`
raises the `ValueError` immediately: the event trace is empty (no subprocess
is launched) and no stream object is constructed (the result is the error,
whose constructor carries no `DockerFileStream`). -/
theorem openFile_bad_mode (path mode : String) (user workdir : Option String)
    (h1 : mode ≠ "rb") (h2 : mode ≠ "wb") :
    DockerRunner.openFile path mode user workdir
      = ([], Except.error (RunError.invalidArgument ("Unsupported mode: " ++ mode))) := by
  have hcond : ¬ (mode = "rb" ∨ mode = "wb") := by
    rintro (h | h)
    · exact h1 h
    · exact h2 h
  simp only [DockerRunner.openFile, if_pos hcond]

/-- C8, witness: mode `"r"` is rejected with no subprocess event. -/
theorem openFile_bad_mode_witness :
    DockerRunner.openFile "/tmp/x" "r" none none
      = ([], Except.error (RunError.invalidArgument ("Unsupported mode: " ++ "r"))) :=
  openFile_bad_mode "/tmp/x" "r" none none (by decide) (by decide)

/-- C3: entering a read-mode stream whose in-container `test -f` check
fails (non-zero exit) raises `FileNotFoundError` carrying the path, and the
event trace consists of the single synchronous existence check: the
streaming `cat` process is never spawned (no `spawn` event), so no data can
have been read. -/
theorem enter_read_missing_file (s : DockerFileStream) (containerName : String)
    (rc : Int) (hmode : s.mode = "rb") (hrc : rc ≠ 0) :
    DockerFileStream.enter s containerName rc
      = ([Event.runCmd (buildExecCmd containerName ["test", "-f", s.path] [] none none)],
         Except.error (RunError.fileNotFound s.path)) ∧
      ((DockerFileStream.enter s containerName rc).1.all
        (fun e => !(e.isSpawn))) = true := by
  have hwb : ¬ s.mode = "wb" := by rw [hmode]; decide
  have heq : DockerFileStream.enter s containerName rc
      = ([Event.runCmd (buildExecCmd containerName ["test", "-f", s.path] [] none none)],
         Except.error (RunError.fileNotFound s.path)) := by
    simp only [DockerFileStream.enter, hmode]
    rw [if_neg (by decide : ¬ ("rb" : String) = "wb")]
    rw [if_pos trivial, if_pos hrc]
  refine ⟨heq, ?_⟩
  rw [heq]
  rfl

/-- C3, witness: a read-mode stream on `"/data/missing"` with a failing
check (exit code 1) raises before any streaming process starts. -/
theorem enter_read_missing_file_witness :
    DockerFileStream.enter ⟨"/data/missing", "rb", none, none⟩ "ctr" 1
      = ([Event.runCmd (buildExecCmd "ctr" ["test", "-f", "/data/missing"] [] none none)],
         Except.error (RunError.fileNotFound "/data/missing")) :=
  (enter_read_missing_file ⟨"/data/missing", "rb", none, none⟩ "ctr" 1 rfl
    (by decide)).1

/-- C4: in `DockerRunnerUserView.copy_to` with an existing directory source
whose in-container `mkdir` succeeds, the call raises the `RuntimeError`
carrying the tar-extraction subprocess's exit code exactly when that exit
code is non-zero; on zero exit it returns normally. -/
theorem copy_to_dir_tar_exit (st : UserViewState) (containerName : String)
    (src_path dest_path : String) (makedirs : Bool) (o : CopyToOracle)
    (hex : o.srcExists = true) (hdir : o.srcIsDir = true)
    (hmk : o.mkdirReturncode = 0) :
    ((DockerRunnerUserView.copy_to st containerName src_path dest_path makedirs o).2
        = Except.error (RunError.transferFailed src_path o.tarReturncode)
      ↔ o.tarReturncode ≠ 0) ∧
      (o.tarReturncode = 0 →
        (DockerRunnerUserView.copy_to st containerName src_path dest_path makedirs o).2
          = Except.ok ()) := by
  have hmk2 : ¬ o.mkdirReturncode ≠ 0 := by rw [hmk]; decide
  by_cases htar : o.tarReturncode ≠ 0
  · have heq : (DockerRunnerUserView.copy_to st containerName src_path dest_path
        makedirs o).2 = Except.error (RunError.transferFailed src_path o.tarReturncode) := by
      simp only [DockerRunnerUserView.copy_to, hex, Bool.true_eq_false, if_false,
        hdir, if_true, if_neg hmk2, if_pos htar]
    exact ⟨by simp [heq, htar], fun h0 => absurd h0 htar⟩
  · have heq : (DockerRunnerUserView.copy_to st containerName src_path dest_path
        makedirs o).2 = Except.ok () := by
      simp only [DockerRunnerUserView.copy_to, hex, Bool.true_eq_false, if_false,
        hdir, if_true, if_neg hmk2, if_neg htar]
    constructor
    · rw [heq]
      simp only [iff_iff_implies_and_implies]
      exact ⟨fun h => absurd h (by simp), fun h => absurd h htar⟩
    · intro _; exact heq

/-- C4, witness: a directory copy whose tar extraction exits with code 2
raises `RuntimeError` carrying exit code 2, and one whose tar extraction
exits 0 returns normally. -/
theorem copy_to_dir_tar_exit_witness :
    ((DockerRunnerUserView.copy_to ⟨"alice", "/home/alice"⟩ "ctr" "src" "/dst" true
        ⟨true, true, 0, 2⟩).2
      = Except.error (RunError.transferFailed "src" 2) ↔ (2 : Int) ≠ 0) ∧
      ((DockerRunnerUserView.copy_to ⟨"alice", "/home/alice"⟩ "ctr" "src" "/dst" true
        ⟨true, true, 0, 0⟩).2 = Except.ok ()) :=
  ⟨(copy_to_dir_tar_exit ⟨"alice", "/home/alice"⟩ "ctr" "src" "/dst" true
      ⟨true, true, 0, 2⟩ rfl rfl rfl).1,
   (copy_to_dir_tar_exit ⟨"alice", "/home/alice"⟩ "ctr" "src" "/dst" true
      ⟨true, true, 0, 0⟩ rfl rfl rfl).2 rfl⟩

/-- C10: `DockerRunnerUserView.chdir` always runs exactly one synchronous
`pwd` with `-w new_dir` under the view's user; when that command exits
non-zero the strict check raises and the stored working directory (and the
whole view state) is unchanged, and when it exits zero the stored working
directory becomes the stripped stdout. -/
theorem chdir_atomic (st : UserViewState) (containerName new_dir : String)
    (o : ExecOutcome) :
    (DockerRunnerUserView.chdir st containerName new_dir o).1
      = [Event.runCmd (buildExecCmd containerName ["pwd"] [] (some st.username)
          (some new_dir))] ∧
      (o.returncode ≠ 0 →
        (DockerRunnerUserView.chdir st containerName new_dir o).2.1 = st ∧
        (DockerRunnerUserView.chdir st containerName new_dir o).2.2
          = Except.error (RunError.commandFailed o.returncode)) ∧
      (o.returncode = 0 →
        (DockerRunnerUserView.chdir st containerName new_dir o).2.1
          = { st with cwd := pyStrip o.stdout } ∧
        (DockerRunnerUserView.chdir st containerName new_dir o).2.2 = Except.ok ()) := by
  by_cases hrc : o.returncode ≠ 0
  · have heq : DockerRunnerUserView.chdir st containerName new_dir o
        = ([Event.runCmd (buildExecCmd containerName ["pwd"] [] (some st.username)
            (some new_dir))], st,
           Except.error (RunError.commandFailed o.returncode)) := by
      simp only [DockerRunnerUserView.chdir, if_pos hrc]
    rw [heq]
    exact ⟨rfl, fun _ => ⟨rfl, rfl⟩, fun h0 => absurd h0 hrc⟩
  · have heq : DockerRunnerUserView.chdir st containerName new_dir o
        = ([Event.runCmd (buildExecCmd containerName ["pwd"] [] (some st.username)
            (some new_dir))], { st with cwd := pyStrip o.stdout }, Except.ok ()) := by
      simp only [DockerRunnerUserView.chdir, if_neg hrc]
    rw [heq]
    exact ⟨rfl, fun h => absurd h hrc, fun _ => ⟨rfl, rfl⟩⟩

/-- C10, witness: a failing `pwd` (exit 1) leaves the working directory at
`"/home/alice"`; a succeeding one (exit 0, stdout `"/tmp\n"`) moves it to
the stripped `"/tmp"`. -/
theorem chdir_atomic_witness :
    (DockerRunnerUserView.chdir ⟨"alice", "/home/alice"⟩ "ctr" "/nope"
        ⟨1, ""⟩).2.1 = ⟨"alice", "/home/alice"⟩ ∧
      (DockerRunnerUserView.chdir ⟨"alice", "/home/alice"⟩ "ctr" "/tmp"
        ⟨0, "/tmp\n"⟩).2.1 = ⟨"alice", "/tmp"⟩ := by
  constructor
  · exact ((chdir_atomic ⟨"alice", "/home/alice"⟩ "ctr" "/nope" ⟨1, ""⟩).2.1
      (by decide)).1
  · have h := ((chdir_atomic ⟨"alice", "/home/alice"⟩ "ctr" "/tmp"
      ⟨0, "/tmp\n"⟩).2.2 rfl).1
    rw [h]
    rfl
